import Mathlib

/-!
Verification development for the BoringCourse study-guide pipeline.

The TypeScript sources embedded here are:
* `src/app/api/ai/study-guide/route.ts` — topic-token extraction, junk-topic
  filtering, prompt-concept extraction, curriculum inference, the fallback
  topic builder inside `defaultGuide`, the output normalizer `normalizeGuide`
  (badge coercion, topic recovery, chip reconciliation) and the primary-topic
  selection of the legacy projection `toLegacyGuide`;
* `src/unnamed/part_008` (scope-lock route) — question tokenization, the
  weekday/10-day window filter, quiz/assignment ranking and selection,
  uncertainty recording and the response `planSpec`;
* `src/lib/server/insights.ts` — grade signals and focus recommendations.

Untrusted generative-model output is modelled by the JSON-like type `JVal`
(JavaScript values including `undefined`); JavaScript operations that can
throw (property access on `null`/`undefined`, calling `.trim()` on a
non-string) are modelled in the `Except String` monad.  JavaScript numbers
are modelled as `ℚ` where arithmetic matters and as `Int` for identifiers
and millisecond timestamps; date strings are modelled post-parse as
millisecond timestamps with the day of week computed from the epoch
(1970-01-01 was a Thursday).  `Array.prototype.sort`, which ECMAScript
specifies only up to the comparator and stability, is modelled by a stable
insertion sort `stableSort`.
-/

/-- JavaScript runtime values as produced by JSON parsing plus `undefined`.
Numbers are modelled as integers; candidate-supplied numbers are never used
arithmetically by the embedded code paths. -/
inductive JVal where
  | jnull
  | jundefined
  | jbool (b : Bool)
  | jnum (n : Int)
  | jstr (s : String)
  | jarr (items : List JVal)
  | jobj (fields : List (String × JVal))

mutual

/-- Structural equality on `JVal`, used to model `Set` membership and
strict equality against string literals (JavaScript `===` compares strings
by value; two distinct but structurally equal objects compare unequal in
JavaScript, which is observationally irrelevant here because every code
path that deduplicates non-strings subsequently throws on them). -/
def JVal.beq : JVal → JVal → Bool
  | .jnull, .jnull => true
  | .jundefined, .jundefined => true
  | .jbool a, .jbool b => a == b
  | .jnum a, .jnum b => a == b
  | .jstr a, .jstr b => a == b
  | .jarr a, .jarr b => JVal.beqList a b
  | .jobj a, .jobj b => JVal.beqFields a b
  | _, _ => false

/-- Pointwise `JVal.beq` on lists. -/
def JVal.beqList : List JVal → List JVal → Bool
  | [], [] => true
  | a :: as_, b :: bs => JVal.beq a b && JVal.beqList as_ bs
  | _, _ => false

/-- Pointwise `JVal.beq` on field lists. -/
def JVal.beqFields : List (String × JVal) → List (String × JVal) → Bool
  | [], [] => true
  | (ka, va) :: as_, (kb, vb) :: bs => ka == kb && JVal.beq va vb && JVal.beqFields as_ bs
  | _, _ => false

end

instance : BEq JVal := ⟨JVal.beq⟩

/-- JavaScript truthiness of a value. -/
def jsTruthy : JVal → Bool
  | .jnull => false
  | .jundefined => false
  | .jbool b => b
  | .jnum n => !(n == 0)
  | .jstr s => !(s == "")
  | .jarr _ => true
  | .jobj _ => true

/-- Whether `typeof v === "object"` (`null` and arrays included). -/
def typeofIsObject : JVal → Bool
  | .jnull => true
  | .jarr _ => true
  | .jobj _ => true
  | _ => false

/-- Whether the value is `null` or `undefined` (nullish). -/
def jsNullish : JVal → Bool
  | .jnull => true
  | .jundefined => true
  | _ => false

/-- Property read that never throws: field lookup on objects, `undefined`
on any non-object (including `null`; callers use this only where the base
is known non-nullish, mirroring how an object spread copies fields). -/
def getField : JVal → String → JVal
  | .jobj fields, k =>
    match fields.find? (fun p => p.1 == k) with
    | some p => p.2
    | none => .jundefined
  | _, _ => .jundefined

/-- Property read with JavaScript semantics: throws a `TypeError` when the
base is `null` or `undefined`, reads the field on objects, and yields
`undefined` on other primitives (boxing). -/
def jsAccess : JVal → String → Except String JVal
  | .jnull, k => .error ("TypeError: cannot read properties of null (reading " ++ k ++ ")")
  | .jundefined, k => .error ("TypeError: cannot read properties of undefined (reading " ++ k ++ ")")
  | v, k => .ok (getField v k)

/-- Model of `value ?? {}`. -/
def jsCoalesceObj (v : JVal) : JVal :=
  if jsNullish v then .jobj [] else v

/-- Model of `Array.isArray(value) ? value : fallback` (`safeArray` in the
route source). -/
def safeArrayJ (v : JVal) (fallback : List JVal) : List JVal :=
  match v with
  | .jarr xs => xs
  | _ => fallback

/-- Model of spreading `{...fallbackRecord, ...candidateRecord}` at one
field: the candidate's value whenever the candidate record has the key
(even with value `undefined`), else the fallback's value. -/
def spreadGet (cand : JVal) (k : String) (fallback : JVal) : JVal :=
  match cand with
  | .jobj fields =>
    match fields.find? (fun p => p.1 == k) with
    | some p => p.2
    | none => fallback
  | _ => fallback

/-- First non-nullish value of the list, else the default: models a chain
`a ?? b ?? c ?? d`. -/
def nullishChain : List JVal → JVal → JVal
  | [], d => d
  | v :: vs, d => if jsNullish v then nullishChain vs d else v

/-- Effectful `List.map` sequencing left to right, as JavaScript
`Array.prototype.map` evaluates its callback. -/
def mapE (f : α → Except ε β) : List α → Except ε (List β)
  | [] => .ok []
  | x :: xs =>
    match f x with
    | .error e => .error e
    | .ok y =>
      match mapE f xs with
      | .error e => .error e
      | .ok ys => .ok (y :: ys)

/-- Effectful `List.filter` sequencing left to right, as JavaScript
`Array.prototype.filter` evaluates its predicate. -/
def filterE (p : α → Except ε Bool) : List α → Except ε (List α)
  | [] => .ok []
  | x :: xs =>
    match p x with
    | .error e => .error e
    | .ok b =>
      match filterE p xs with
      | .error e => .error e
      | .ok rest => .ok (if b then x :: rest else rest)

/-- Effectful `Array.prototype.find`: first match, short-circuiting. -/
def findE (p : α → Except ε Bool) : List α → Except ε (Option α)
  | [] => .ok none
  | x :: xs =>
    match p x with
    | .error e => .error e
    | .ok b => if b then .ok (some x) else findE p xs

/-- Lowercasing as `String.prototype.toLowerCase` on ASCII text. -/
def jsToLower (s : String) : String :=
  String.mk (s.toList.map Char.toLower)

/-- Whitespace trimming as `String.prototype.trim`. -/
def jsTrim (s : String) : String :=
  String.mk (((s.toList.dropWhile Char.isWhitespace).reverse.dropWhile Char.isWhitespace).reverse)

/-- Substring test as `String.prototype.includes`. -/
def jsIncludes (hay sub : String) : Bool :=
  (List.range (hay.toList.length + 1)).any (fun i => sub.toList.isPrefixOf (hay.toList.drop i))

/-- Split on runs of whitespace, dropping empty pieces.  JavaScript
`split(/\s+/)` additionally yields one leading empty string when the input
starts with whitespace; every embedded caller filters the pieces by a
length or non-emptiness condition, under which the two agree. -/
def splitWsAux : List Char → List Char → List String
  | [], cur => if cur.isEmpty then [] else [String.mk cur.reverse]
  | c :: rest, cur =>
    if c.isWhitespace then
      if cur.isEmpty then splitWsAux rest []
      else String.mk cur.reverse :: splitWsAux rest []
    else splitWsAux rest (c :: cur)

/-- Model of `s.split(/\s+/)` composed with dropping empties. -/
def jsSplitWs (s : String) : List String :=
  splitWsAux s.toList []

/-- Word characters, the regex class `\w` = `[A-Za-z0-9_]`. -/
def isWordChar (c : Char) : Bool :=
  (('a' ≤ c && c ≤ 'z') || ('A' ≤ c && c ≤ 'Z') || ('0' ≤ c && c ≤ '9') || c == '_')

/-- Whether the literal pattern occurs in the text at position `i` with a
regex word boundary `\b` on each side (all embedded patterns begin and end
with word characters, so the boundary holds exactly when the neighbouring
character is absent or a non-word character). -/
def occursAtBoundary (pat text : List Char) (i : Nat) : Bool :=
  pat.isPrefixOf (text.drop i)
    && (i == 0 || !(isWordChar (text.getD (i - 1) ' ')))
    && (decide (text.length ≤ i + pat.length) || !(isWordChar (text.getD (i + pat.length) ' ')))

/-- Test of a regex `\bphrase\b` against the text. -/
def reTestPhrase (pat text : String) : Bool :=
  (List.range (text.toList.length + 1)).any (occursAtBoundary pat.toList text.toList)

/-- Test of a regex alternation `\b(p1|p2|...)\b` of literal phrases. -/
def reTestAlts (pats : List String) (text : String) : Bool :=
  pats.any (fun p => reTestPhrase p text)

/-- Capitalisation `replace(/\b\w/g, c => c.toUpperCase())`: uppercase every
word character that starts a word run. -/
def capWordsAux : List Char → Option Char → List Char
  | [], _ => []
  | c :: rest, prev =>
    let boundary := match prev with
      | none => true
      | some pc => !(isWordChar pc)
    (if isWordChar c && boundary then c.toUpper else c) :: capWordsAux rest (some c)

/-- Model of `token.replace(/\b\w/g, (c) => c.toUpperCase())`. -/
def capWords (s : String) : String :=
  String.mk (capWordsAux s.toList none)

/-- Insertion-order deduplication of strings, as `Array.from(new Set(...))`. -/
def dedupStr (l : List String) : List String :=
  (l.foldl (fun acc s => if acc.contains s then acc else acc ++ [s]) [])

/-- Insertion-order deduplication of `JVal`s by structural equality. -/
def dedupJVal (l : List JVal) : List JVal :=
  (l.foldl (fun acc v => if acc.any (fun w => JVal.beq w v) then acc else acc ++ [v]) [])

namespace StudyGuide

/-- Stop words of `extractTopicTokens` in the study-guide route. -/
def topicStopWords : List String :=
  ["i", "need", "help", "with", "the", "a", "an", "for", "to", "on", "and", "of", "my",
   "quiz", "test", "study", "guide", "make", "create", "build", "please", "me", "what",
   "should", "could", "would", "can", "how", "when", "where", "why", "which", "tell"]

/-- Replacement `replace(/[^a-z0-9\s]/g, " ")` applied after lowercasing. -/
def keepAlnumWs (s : String) : String :=
  String.mk (s.toList.map (fun c =>
    if ('a' ≤ c && c ≤ 'z') || ('0' ≤ c && c ≤ '9') || c.isWhitespace then c else ' '))

/-- Embedding of `extractTopicTokens` (study-guide route): lowercase, strip
non-alphanumerics, split on whitespace, keep tokens longer than 2 characters
that are not stop words, deduplicate, first 10. -/
def extractTopicTokens (question : String) : List String :=
  (dedupStr ((jsSplitWs (keepAlnumWs (jsToLower question))).filter
    (fun token => decide (2 < token.length) && !(topicStopWords.contains token)))).take 10

/-- Junk words of `isJunkTopic`. -/
def junkWords : List String :=
  ["what", "should", "could", "would", "can", "how", "when", "where", "why", "which",
   "make", "create", "build", "study", "guide", "quiz", "test"]

/-- Embedding of `isJunkTopic` on strings: trimmed lowercased label empty or
in the junk-word set. -/
def isJunkTopic (value : String) : Bool :=
  let normalized := jsToLower (jsTrim value)
  if normalized == "" then true else junkWords.contains normalized

/-- Embedding of `extractPromptConcepts`: keyword-to-concept table driven by
word-boundary regex tests against the lowercased prompt. -/
def extractPromptConcepts (prompt : String) : List String :=
  let text := jsToLower prompt
  let concepts :=
    (if reTestAlts ["quadratic", "quadratics", "qudartic", "qudratic"] text
      then ["Quadratic functions"] else []) ++
    (if reTestPhrase "vertex" text then ["Vertex and axis of symmetry"] else []) ++
    (if reTestAlts ["factor", "factoring"] text then ["Factoring quadratics"] else []) ++
    (if reTestAlts ["complete the square", "completing the square"] text
      then ["Completing the square"] else []) ++
    (if reTestPhrase "quadratic formula" text then ["Quadratic formula"] else []) ++
    (if reTestPhrase "discriminant" text then ["Discriminant and number of roots"] else []) ++
    (if reTestPhrase "complex" text then ["Complex roots"] else [])
  dedupStr concepts

/-- Embedding of `inferLikelyTopics`: curriculum-pattern inference from
substring checks on `courseName + " " + prompt`, lowercased.  Note the source
tests `algebra 1`/`algebra i` before `algebra 2`/`algebra ii`. -/
def inferLikelyTopics (courseName prompt : String) : List String :=
  let text := jsToLower (courseName ++ " " ++ prompt)
  let wantsQuadratics := reTestAlts ["quadratic", "quadratics", "qudartic", "qudratic"] text
  if jsIncludes text "algebra 1" || jsIncludes text "algebra i" then
    ["Linear equations", "Systems of equations", "Exponents and polynomials"]
  else if jsIncludes text "algebra 2" || jsIncludes text "algebra ii" then
    if wantsQuadratics then
      ["Quadratic functions", "Graphing parabolas", "Factoring quadratics",
       "Completing the square", "Quadratic formula and discriminant"]
    else
      ["Quadratic functions", "Polynomial operations", "Rational expressions"]
  else if jsIncludes text "chem" || jsIncludes text "chemistry" then
    ["Stoichiometry", "Chemical reactions", "Gas laws"]
  else if jsIncludes text "biology" || jsIncludes text "bio" then
    ["Cell processes", "Genetics", "Ecology interactions"]
  else if jsIncludes text "history" || jsIncludes text "government" || jsIncludes text "civics" then
    ["Key terms and events", "Cause and effect analysis", "Source evidence usage"]
  else
    ["Core vocabulary", "Primary problem types", "Common assessment patterns"]

/-- Badge strings of the three-badge taxonomy. -/
def badgeConfirmed : String := "Confirmed on test"

/-- Badge string for likely topics. -/
def badgeLikely : String := "Likely on test"

/-- Badge string for speculative topics. -/
def badgeMayNot : String := "May not be on test"

/-- The closed badge domain. -/
def badgeStrings : List String := [badgeConfirmed, badgeLikely, badgeMayNot]

/-- Embedding of `pickBadge`. -/
def pickBadge (hasDirectEvidence hasContextEvidence : Bool) : String :=
  if hasDirectEvidence then badgeConfirmed
  else if hasContextEvidence then badgeLikely
  else badgeMayNot

/-- Topic record of the canonical document.  The label and free-text fields
are `JVal` because `normalizeGuide` copies them from untrusted candidate
output; documents built locally always store strings there. -/
structure NTopic where
  topic : JVal
  badge : String
  why_included : JVal
  evidence : List JVal


/-- Checklist item of the canonical document. -/
structure ChecklistItem where
  id : JVal
  task : JVal
  badge : String
  done_when : JVal
  linked_section_id : JVal


/-- Scope-lock component. -/
structure ScopeLockRec where
  topics : List NTopic
  out_of_scope_topics : List JVal


/-- Study-guide overview component. -/
structure OverviewRec where
  test_ready_definition : JVal
  estimated_total_minutes : JVal
  if_you_have_20_min : List JVal
  if_you_have_45_min : List JVal
  if_you_have_75_min : List JVal


/-- Study-guide body: overview plus open-shaped sections. -/
structure StudyGuideRec where
  overview : OverviewRec
  sections : List JVal


/-- UI hints component. -/
structure UiHintsRec where
  topic_chips : List JVal
  default_selected_topics : List JVal
  recommended_time_buttons : List JVal


/-- The canonical generated-guide document (`GeneratorOutput`), restricted
to the components observed by the stated properties: `status`, `scope_lock`,
`study_guide`, `checklist.items` and `ui_hints`.  The `meta` and
`tutor_handoff` components are merged by `normalizeGuide` with the same
shallow-spread pattern and are observed by none of the properties below, so
they are not carried in the embedding. -/
structure Guide where
  status : String
  scope_lock : ScopeLockRec
  study_guide : StudyGuideRec
  checklist : List ChecklistItem
  ui_hints : UiHintsRec


/-- Embedding of `normalizeBadge`: keep one of the three literals, coerce
anything else to `Likely on test`. -/
def normalizeBadge (value : JVal) : String :=
  if value == .jstr badgeConfirmed then badgeConfirmed
  else if value == .jstr badgeLikely then badgeLikely
  else if value == .jstr badgeMayNot then badgeMayNot
  else badgeLikely

/-- Model of `isJunkTopic(value)` applied to an untrusted value: the source
calls `value.trim()`, which throws unless the value is a string. -/
def isJunkTopicJ : JVal → Except String Bool
  | .jstr s => .ok (isJunkTopic s)
  | .jnull => .error "TypeError: cannot read properties of null (reading trim)"
  | .jundefined => .error "TypeError: cannot read properties of undefined (reading trim)"
  | _ => .error "TypeError: value.trim is not a function"

/-- Predicate of the topic junk filter at line 658 of the route:
`(topic) => !isJunkTopic(topic.topic)`. -/
def notJunkE (t : NTopic) : Except String Bool :=
  match isJunkTopicJ t.topic with
  | .error e => .error e
  | .ok b => .ok !b

/-- Conversion applied by `normalizeGuide` to each candidate-supplied topic:
`{...topic, badge: normalizeBadge(topic.badge), evidence: safeArray(topic.evidence, [])}`.
Property access `topic.badge` throws when the element is nullish. -/
def jvalToNTopic (v : JVal) : Except String NTopic :=
  match jsAccess v "badge" with
  | .error e => .error e
  | .ok b =>
    match jsAccess v "evidence" with
    | .error e => .error e
    | .ok ev =>
      .ok { topic := getField v "topic"
            badge := normalizeBadge b
            why_included := getField v "why_included"
            evidence := safeArrayJ ev [] }

/-- The same conversion applied to a fallback topic (the `.map` at line 604
runs on the fallback list when the candidate's `topics` is not an array):
only the badge re-normalisation is observable. -/
def renormTopicFb (t : NTopic) : NTopic :=
  { t with badge := normalizeBadge (.jstr t.badge), evidence := safeArrayJ (.jarr t.evidence) [] }

/-- Merged topics of line 604: the candidate's `scope_lock.topics` when it
is an array (each element converted), else the fallback topics (each passed
through the same map). -/
def mergeTopics (scopeObj : JVal) (fb : List NTopic) : Except String (List NTopic) :=
  match getField scopeObj "topics" with
  | .jarr xs => mapE jvalToNTopic xs
  | _ => .ok (fb.map renormTopicFb)

/-- Topic recovery of lines 655–661: replace an empty merged list by the
fallback topics, junk-filter, and on an empty result junk-filter the
fallback topics instead. -/
def recoveredTopics (scopeObj : JVal) (fb : List NTopic) : Except String (List NTopic) :=
  match mergeTopics scopeObj fb with
  | .error e => .error e
  | .ok t0 =>
    match filterE notJunkE (if t0.length = 0 then fb else t0) with
    | .error e => .error e
    | .ok t2 => if t2.length = 0 then filterE notJunkE fb else .ok t2

/-- Conversion applied to each candidate-supplied checklist item:
`{...item, badge: normalizeBadge(item.badge)}`. -/
def jvalToChecklistItem (v : JVal) : Except String ChecklistItem :=
  match jsAccess v "badge" with
  | .error e => .error e
  | .ok b =>
    .ok { id := getField v "id"
          task := getField v "task"
          badge := normalizeBadge b
          done_when := getField v "done_when"
          linked_section_id := getField v "linked_section_id" }

/-- The checklist-item map applied to a fallback item. -/
def renormItemFb (it : ChecklistItem) : ChecklistItem :=
  { it with badge := normalizeBadge (.jstr it.badge) }

/-- Merged checklist items of lines 626–632. -/
def mergeChecklistItems (checklistObj : JVal) (fb : List ChecklistItem) : Except String (List ChecklistItem) :=
  match getField checklistObj "items" with
  | .jarr xs => mapE jvalToChecklistItem xs
  | _ => .ok (fb.map renormItemFb)

/-- Merged UI hints of lines 646–652 (before chip reconciliation). -/
def mergeUiHints (uiObj : JVal) (fb : UiHintsRec) : UiHintsRec :=
  { topic_chips := safeArrayJ (getField uiObj "topic_chips") fb.topic_chips
    default_selected_topics := safeArrayJ (getField uiObj "default_selected_topics") fb.default_selected_topics
    recommended_time_buttons := safeArrayJ (getField uiObj "recommended_time_buttons") fb.recommended_time_buttons }

/-- Merged overview of lines 614–620. -/
def mergeOverview (overviewObj : JVal) (fb : OverviewRec) : OverviewRec :=
  { test_ready_definition := spreadGet overviewObj "test_ready_definition" fb.test_ready_definition
    estimated_total_minutes := spreadGet overviewObj "estimated_total_minutes" fb.estimated_total_minutes
    if_you_have_20_min := safeArrayJ (getField overviewObj "if_you_have_20_min") fb.if_you_have_20_min
    if_you_have_45_min := safeArrayJ (getField overviewObj "if_you_have_45_min") fb.if_you_have_45_min
    if_you_have_75_min := safeArrayJ (getField overviewObj "if_you_have_75_min") fb.if_you_have_75_min }

/-- Candidate's `scope_lock` record (`?? {}`). -/
def scopeObjOf (cand : JVal) : JVal := jsCoalesceObj (getField cand "scope_lock")

/-- Candidate's `study_guide` record (`?? {}`). -/
def studyObjOf (cand : JVal) : JVal := jsCoalesceObj (getField cand "study_guide")

/-- Candidate's `checklist` record (`?? {}`). -/
def checklistObjOf (cand : JVal) : JVal := jsCoalesceObj (getField cand "checklist")

/-- Candidate's `ui_hints` record (`?? {}`). -/
def uiObjOf (cand : JVal) : JVal := jsCoalesceObj (getField cand "ui_hints")

/-- Assembly of the normalized document from the recovered topics and merged
checklist: the remaining total merges plus the chip reconciliation of lines
663–669 (`topic_chips` re-derived from the final topics when non-empty, and
`default_selected_topics` defaulted to the first three chips when the merged
list is empty). -/
def assembleGuide (cand : JVal) (fb : Guide) (topics : List NTopic) (items : List ChecklistItem) : Guide :=
  let scopeObj := scopeObjOf cand
  let studyObj := studyObjOf cand
  let overviewObj := jsCoalesceObj (getField studyObj "overview")
  let uiObj := uiObjOf cand
  let ui0 := mergeUiHints uiObj fb.ui_hints
  let chips := (topics.map NTopic.topic).filter jsTruthy
  let ui :=
    if 0 < chips.length then
      { ui0 with
          topic_chips := chips
          default_selected_topics :=
            if ui0.default_selected_topics.length = 0 then chips.take 3
            else ui0.default_selected_topics }
    else ui0
  { status := "READY"
    scope_lock :=
      { topics := topics
        out_of_scope_topics := safeArrayJ (getField scopeObj "out_of_scope_topics") fb.scope_lock.out_of_scope_topics }
    study_guide :=
      { overview := mergeOverview overviewObj fb.study_guide.overview
        sections := safeArrayJ (getField studyObj "sections") fb.study_guide.sections }
    checklist := items
    ui_hints := ui }

/-- Embedding of `normalizeGuide`: return the fallback verbatim unless the
candidate is a truthy value of object type, else merge field by field with
badge coercion, topic recovery and chip reconciliation.  The source
evaluates the checklist map between the topic map and the topic-recovery
filters; `Except` sequencing makes that interleaving unobservable (the call
fails exactly when some step fails), so the recovery is grouped with the
topic merge here. -/
def normalizeGuide (candidate : JVal) (fallback : Guide) : Except String Guide :=
  if !(jsTruthy candidate) || !(typeofIsObject candidate) then .ok fallback
  else
    match recoveredTopics (scopeObjOf candidate) fallback.scope_lock.topics with
    | .error e => .error e
    | .ok topics =>
      match mergeChecklistItems (checklistObjOf candidate) fallback.checklist with
      | .error e => .error e
      | .ok items => .ok (assembleGuide candidate fallback topics items)

end StudyGuide

namespace StudyGuide

/-- Selected-assignment shape of the study-guide request body. -/
structure SelAssignment where
  name : String
  submissionScore : Option ℚ := none
  pointsPossible : Option ℚ := none
  conceptHint : Option String := none

/-- Model of `a.conceptHint || a.name` (empty strings are falsy). -/
def conceptOrName (a : SelAssignment) : String :=
  match a.conceptHint with
  | some c => if c == "" then a.name else c
  | none => a.name

/-- The topic construction inside `defaultGuide` (route lines 303–344): the
Topic Scope Builder.  Candidate labels come, in precedence order, from
explicit assignment concept hints, selected unit labels, prompt concepts
(or capitalised topic tokens when the keyword table matches nothing) and
curriculum inference; the union is deduplicated, trimmed, junk-filtered and
capped at 8, and each topic is badged by direct/contextual evidence. -/
def defaultGuideTopics (courseName : Option String) (selectedAssignments : List SelAssignment)
    (selectedUnits : List String) (userPrompt : Option String) (topicTokens : List String) :
    List NTopic :=
  let assignmentNames := selectedAssignments.map (fun a => a.name)
  let inferred := inferLikelyTopics (courseName.getD "") (userPrompt.getD "")
  let explicit := (selectedAssignments.map conceptOrName).filter (fun s => !(s == ""))
  let unitTopics := selectedUnits
  let promptConcepts := extractPromptConcepts (userPrompt.getD "")
  let promptTopics :=
    if 0 < promptConcepts.length then promptConcepts
    else topicTokens.map capWords
  let baseTopics :=
    (((dedupStr (explicit ++ unitTopics ++ promptTopics ++ inferred)).map jsTrim).filter
      (fun topic => !(isJunkTopic topic))).take 8
  baseTopics.map (fun topic =>
    let topicLower := jsToLower topic
    let direct := assignmentNames.any (fun n => jsIncludes (jsToLower n) topicLower)
      || explicit.any (fun n => jsToLower n == topicLower)
    let context := selectedUnits.any (fun n => jsIncludes (jsToLower n) topicLower)
      || topicTokens.any (fun t => jsIncludes topicLower t)
    let badge := pickBadge direct context
    { topic := .jstr topic
      badge := badge
      why_included := .jstr
        (if badge == badgeConfirmed then
          "Directly supported by selected assignments or explicit course evidence."
        else if badge == badgeLikely then
          "Strongly inferred from units/context near the assessment window."
        else "Included for complete prep based on common curriculum patterns.")
      evidence :=
        [.jobj
          [("from", .jstr (if badge == badgeConfirmed then "assignment"
            else if badge == badgeLikely then "module" else "inference")),
           ("note", .jstr
            (if badge == badgeConfirmed then "Matched assignment/concept naming from selected coursework."
             else if badge == badgeLikely then "Aligned with current units or user-requested topic wording."
             else "Commonly assessed in this course level even without explicit Canvas confirmation."))]] })

/-- Generic single-word topics excluded by the legacy projection. -/
def genericTopicWords : List String :=
  ["algebra", "math", "mathematics", "general", "topic", "concept"]

/-- Find of `sections.find((section) => section.id === sid)`: reading `id`
throws on nullish elements; the strict comparison against a string literal
is structural. -/
def findSectionE (sections : List JVal) (sid : String) : Except String (Option JVal) :=
  findE (fun s =>
    match jsAccess s "id" with
    | .error e => .error e
    | .ok idv => .ok (idv == .jstr sid)) sections

/-- Model of `(section?.key ?? []).map((item) => item.topic)`: nullish
section or key yields `[]`; a non-array, non-nullish key makes `.map` throw;
reading `topic` throws on nullish elements. -/
def sectionTopicVals (sec : Option JVal) (key : String) : Except String (List JVal) :=
  let raw := match sec with
    | some s => getField s key
    | none => .jundefined
  let listv := if jsNullish raw then JVal.jarr [] else raw
  match listv with
  | .jarr xs => mapE (fun item => jsAccess item "topic") xs
  | _ => .error ("TypeError: " ++ key ++ ".map is not a function")

/-- Filter `typeof item === "string" && item.length > 0` of the section
topic lists. -/
def stringTopics (vs : List JVal) : List String :=
  vs.filterMap (fun v =>
    match v with
    | .jstr s => if 0 < s.length then some s else none
    | _ => none)

/-- Specific-topic filter body of `toLegacyGuide`: drop empty or generic
labels, keep a label only when some whitespace-separated part is not a
generic word.  Applied through `.trim()`, so it throws on non-strings. -/
def specificTopicStr (s : String) : Bool :=
  let lowered := jsToLower (jsTrim s)
  if lowered == "" then false
  else if genericTopicWords.contains lowered then false
  else (jsSplitWs lowered).any (fun part => !(genericTopicWords.contains part))

/-- The specific-topic filter on an untrusted deduplicated element. -/
def specificTopicE : JVal → Except String Bool
  | .jstr s => .ok (specificTopicStr s)
  | .jnull => .error "TypeError: cannot read properties of null (reading trim)"
  | .jundefined => .error "TypeError: cannot read properties of undefined (reading trim)"
  | _ => .error "TypeError: topic.trim is not a function"

/-- Embedding of the `specificTopics` computation of `toLegacyGuide` (route
lines 677–708): practice-set, diagnostic and final-review section topics
(string-typed, non-empty) plus the raw topic labels, deduplicated in that
priority order, filtered to specific labels. -/
def legacySpecificTopics (doc : Guide) : Except String (List JVal) :=
  match findSectionE doc.study_guide.sections "diagnostic" with
  | .error e => .error e
  | .ok dsec =>
    match findSectionE doc.study_guide.sections "practice_sets" with
    | .error e => .error e
    | .ok psec =>
      match findSectionE doc.study_guide.sections "final_review" with
      | .error e => .error e
      | .ok fsec =>
        match sectionTopicVals dsec "questions" with
        | .error e => .error e
        | .ok dvals =>
          match sectionTopicVals psec "sets" with
          | .error e => .error e
          | .ok pvals =>
            match sectionTopicVals fsec "timed_set" with
            | .error e => .error e
            | .ok fvals =>
              let combined :=
                ((stringTopics pvals).map JVal.jstr) ++ ((stringTopics dvals).map JVal.jstr)
                  ++ ((stringTopics fvals).map JVal.jstr) ++ doc.scope_lock.topics.map NTopic.topic
              filterE specificTopicE (dedupJVal combined)

/-- Embedding of the primary-topic selection of `toLegacyGuide` (route line
709): `specificTopics[0] ?? topics[0]?.topic ?? userPrompt?.trim() ?? "current quiz topic"`. -/
def legacyPrimaryTopic (doc : Guide) (userPrompt : Option String) : Except String JVal :=
  match legacySpecificTopics doc with
  | .error e => .error e
  | .ok specific =>
  .ok (nullishChain
    [specific.headD .jundefined,
     (match doc.scope_lock.topics.head? with
      | some t => t.topic
      | none => .jundefined),
     (match userPrompt with
      | some p => .jstr (jsTrim p)
      | none => .jundefined)]
    (.jstr "current quiz topic"))

end StudyGuide

/-- Stable insertion of an element in front of the first entry it compares
`le` to.  With `le a b` meaning "the comparator does not put `b` strictly
before `a`", this realises the ECMAScript `Array.prototype.sort` contract
(sorted by the comparator, equal elements in original order). -/
def insertLe (le : α → α → Bool) (x : α) : List α → List α
  | [] => [x]
  | y :: ys => if le x y then x :: y :: ys else y :: insertLe le x ys

/-- Stable sort by insertion; the model of `Array.prototype.sort` for every
comparator-consistent total preorder `le`. -/
def stableSort (le : α → α → Bool) : List α → List α
  | [] => []
  | x :: xs => insertLe le x (stableSort le xs)

namespace ScopeLock

/-- Stop words of `extractTopicTokens` in the scope-lock route (a shorter
list than the study-guide route's). -/
def scopeStopWords : List String :=
  ["i", "need", "help", "with", "the", "a", "an", "for", "to", "on", "and", "of", "my",
   "quiz", "test", "study", "guide"]

/-- Embedding of `extractTopicTokens` (scope-lock route): lowercase, strip
non-alphanumerics, split on whitespace, keep tokens longer than 2 characters
that are not stop words, deduplicate, first 8. -/
def extractTopicTokens (question : String) : List String :=
  (dedupStr ((jsSplitWs (keepAlnumWs (jsToLower question))).filter
    (fun token => decide (2 < token.length) && !(scopeStopWords.contains token)))).take 8
  where keepAlnumWs := StudyGuide.keepAlnumWs

/-- Course snapshot fetched from the grading system. -/
structure CanvasCourse where
  id : Int
  name : String
  course_code : Option String := none

/-- Quiz snapshot; `due_at` is the parsed due timestamp in milliseconds
(`none` for a null, missing or empty date string). -/
structure CanvasQuiz where
  id : Int
  title : String
  description : Option String := none
  due_at : Option Int := none
  time_limit : Option Int := none
  allowed_attempts : Option Int := none
  question_count : Option Int := none
deriving DecidableEq

/-- Assignment snapshot of the scope-lock route. -/
structure CanvasAssignment where
  id : Int
  name : String
  due_at : Option Int := none
  submissionScore : Option ℚ := none
  points_possible : Option ℚ := none
deriving DecidableEq

/-- Module snapshot. -/
structure CanvasModule where
  id : Int
  name : String

/-- Module-item snapshot. -/
structure CanvasModuleItem where
  id : Int
  title : Option String := none

/-- Announcement snapshot (already fetched inside the date window). -/
structure CanvasAnnouncement where
  id : Int
  title : String
  message : Option String := none

/-- Page snapshot. -/
structure CanvasPage where
  url : String
  title : String

/-- File snapshot. -/
structure CanvasFile where
  id : Int
  display_name : String

/-- Milliseconds in a day. -/
def msPerDay : Int := 86400000

/-- Day of week of a millisecond timestamp (`Date.prototype.getDay` with the
epoch 1970-01-01 falling on a Thursday, index 4; 0 is Sunday, 6 Saturday). -/
def jsGetDay (t : Int) : Int :=
  (Int.fdiv t msPerDay + 4).emod 7

/-- Embedding of `isWeekday`: false for a missing date, else the day of week
is neither Sunday nor Saturday. -/
def isWeekday : Option Int → Bool
  | none => false
  | some t => !(jsGetDay t == 0) && !(jsGetDay t == 6)

/-- Embedding of `textMatchScore`: the number of tokens contained in the
lowercased text. -/
def textMatchScore (text : String) (tokens : List String) : Nat :=
  tokens.foldl (fun score token => if jsIncludes (jsToLower text) token then score + 1 else score) 0

/-- The weekday/window filter applied to quizzes: a due date exists, falls
on a weekday and lies within `[today, today + 10 days]`. -/
def quizWindowOk (today : Int) (q : CanvasQuiz) : Bool :=
  match q.due_at with
  | none => false
  | some due => isWeekday (some due) && decide (today ≤ due) && decide (due ≤ today + 10 * msPerDay)

/-- The same filter applied to assignments. -/
def asgWindowOk (today : Int) (a : CanvasAssignment) : Bool :=
  match a.due_at with
  | none => false
  | some due => isWeekday (some due) && decide (today ≤ due) && decide (due ≤ today + 10 * msPerDay)

/-- Quiz ranking score `tokenScore * 10 - dueSoonness`, with `dueSoonness`
the absolute distance from today in (fractional) days. -/
def quizRank (today : Int) (tokens : List String) (q : CanvasQuiz) : ℚ :=
  let tokenScore : ℚ := textMatchScore (q.title ++ " " ++ (q.description.getD "")) tokens
  let due := q.due_at.getD 0
  tokenScore * 10 - ((((due - today).natAbs : ℚ)) / (msPerDay : ℚ))

/-- Descending comparison on the precomputed quiz rank, the comparator
`(a, b) => b.rankScore - a.rankScore`. -/
def quizRankLe (a b : CanvasQuiz × ℚ) : Bool :=
  decide (b.2 ≤ a.2)

/-- Descending comparison on the assignment token score. -/
def asgScoreLe (a b : CanvasAssignment × Nat) : Bool :=
  decide (b.2 ≤ a.2)

/-- The selected assessment: quiz, assignment, or none. -/
structure TargetAssessment where
  type : String
  id : Int
  title : String
  due_at : Option Int
  courseId : Int
  description : Option String := none

/-- Embedding of the assessment selection (scope-lock route lines 199–259):
filter quizzes by the weekday/10-day window, rank by
`tokenScore * 10 - daysFromToday` and take the top; when no quiz candidate
exists, filter assignments the same way, rank by token score alone and take
the top; else no assessment. -/
def selectTargetAssessment (courseId today : Int) (tokens : List String)
    (quizzes : List CanvasQuiz) (assignments : List CanvasAssignment) :
    Option TargetAssessment :=
  let quizCandidates :=
    stableSort quizRankLe
      ((quizzes.filter (quizWindowOk today)).map (fun q => (q, quizRank today tokens q)))
  match quizCandidates.head? with
  | some p =>
    some { type := "quiz", id := p.1.id, title := p.1.title, due_at := p.1.due_at,
           courseId := courseId, description := p.1.description }
  | none =>
    let assignmentCandidates :=
      stableSort asgScoreLe
        ((assignments.filter (asgWindowOk today)).map (fun a => (a, textMatchScore a.name tokens)))
    match assignmentCandidates.head? with
    | some p =>
      some { type := "assignment", id := p.1.id, title := p.1.name, due_at := p.1.due_at,
             courseId := courseId }
    | none => none

/-- The uncertainty recorded when no assessment candidate survives the
weekday/window filter. -/
def noAssessmentMsg : String :=
  "No weekday assessment in the next 10 days was found in the selected course."

/-- Whether the selected assessment is a quiz. -/
def targetIsQuiz : Option TargetAssessment → Bool
  | some t => t.type == "quiz"
  | none => false

/-- Falsiness of `quizDetails?.time_limit` (missing details, missing field
or a zero limit). -/
def timeLimitFalsy : Option CanvasQuiz → Bool
  | none => true
  | some qd =>
    match qd.time_limit with
    | none => true
    | some v => v == 0

/-- Truth of `quizDetails?.allowed_attempts == null`. -/
def attemptsNullish : Option CanvasQuiz → Bool
  | none => true
  | some qd => qd.allowed_attempts.isNone

/-- Embedding of the uncertainty recording (scope-lock route lines 315–324). -/
def scopeUncertainties (target : Option TargetAssessment) (quizDetails : Option CanvasQuiz) :
    List String :=
  (if target.isNone then [noAssessmentMsg] else [])
    ++ (if timeLimitFalsy quizDetails && targetIsQuiz target then
          ["Quiz time limit is not clearly available."] else [])
    ++ (if attemptsNullish quizDetails && targetIsQuiz target then
          ["Allowed attempts are not clearly available."] else [])

/-- Embedding of the clarifying-question policy: two canned questions when
any uncertainty exists, else none. -/
def scopeUserQuestions (uncertainties : List String) : List String :=
  if 0 < uncertainties.length then
    (["If multiple assessments appear in your class, should we target the earliest weekday due date? (A) Yes (B) No, I will pick manually",
      "What is the expected format if unclear? (A) Mostly MCQ (B) Mostly free response (C) Mixed"].take 2)
  else []

/-- Math.round as floor of the shifted value. -/
def jsRound (q : ℚ) : Int := Int.floor (q + 1 / 2)

/-- A weak-signal entry. -/
structure WeakSignal where
  item_name : String
  score_pct : Int

/-- Ascending comparison on the weak-signal percentage. -/
def weakLe (a b : WeakSignal) : Bool :=
  decide (a.score_pct ≤ b.score_pct)

/-- Embedding of the weak-signal extraction (scope-lock route lines 293–301):
numerically scored assignments with positive points, percentage below 80,
ascending by percentage, first 5. -/
def weakSignalsOf (assignments : List CanvasAssignment) : List WeakSignal :=
  ((stableSort weakLe
    (((assignments.filter (fun a =>
        a.submissionScore.isSome
          && (match a.points_possible with | some p => decide (0 < p) | none => false))).map
      (fun a =>
        ({ item_name := a.name
           score_pct := jsRound (((a.submissionScore.getD 0) / (a.points_possible.getD 1)) * 100) } : WeakSignal))).filter
      (fun s => decide (s.score_pct < 80))))).take 5

/-- Descending comparison of modules by name token match. -/
def moduleLe (tokens : List String) (a b : CanvasModule) : Bool :=
  decide (textMatchScore b.name tokens ≤ textMatchScore a.name tokens)

/-- Embedding of `likelyTopics` (scope-lock route lines 303–313): question
tokens plus tokens extracted from the selected module's item titles,
non-empty, deduplicated, first 10. -/
def likelyTopicsOf (tokens : List String) (moduleItems : List CanvasModuleItem) : List String :=
  (dedupStr ((tokens
      ++ (((moduleItems.map (fun i => i.title.getD "")).filter (fun t => !(t == ""))).map
            extractTopicTokens).flatten).filter
    (fun s => !(s == "")))).take 10

/-- Descending comparison of courses by name/code token match. -/
def courseLe (tokens : List String) (a b : CanvasCourse) : Bool :=
  decide (textMatchScore (b.name ++ " " ++ (b.course_code.getD "")) tokens
    ≤ textMatchScore (a.name ++ " " ++ (a.course_code.getD "")) tokens)

/-- Embedding of the course guess: the hinted course when the hint is truthy
and resolves, else the best token match over all courses, else none.  Note
`courseId ? ... : null` makes a zero hint falsy. -/
def guessedCourse (courseId : Option Int) (tokens : List String) (courses : List CanvasCourse) :
    Option CanvasCourse :=
  (match courseId with
   | some cid => if cid == 0 then none else courses.find? (fun (c : CanvasCourse) => c.id == cid)
   | none => none).orElse
    (fun _ => (stableSort (courseLe tokens) courses).head?)

/-- The `planSpec.assessment` record. -/
structure PlanSpecAssessment where
  type : Option String
  id : Option String
  title : Option String
  due_at : Option Int

/-- The `planSpec` record of the scope-lock response (nested records
flattened into prefixed fields). -/
structure PlanSpec where
  course_id : Option Int
  assessment : PlanSpecAssessment
  topic_tokens : List String
  in_scope_topics : List String
  out_of_scope_topics : List String
  style_mcq : String
  style_free_response : String
  style_graphing : String
  materials_module_items : List String
  materials_files : List String
  materials_pages : List String
  materials_announcements : List String
  weak_areas : List String
  signals : List String
  ready_to_generate : Bool

/-- The scope-lock response, restricted to the summary fields the stated
properties observe (the presentation-only `teacherStyleSignals`,
`constraints` and `materialsFound` summaries are not carried). -/
structure ScopeResponse where
  course : Option CanvasCourse
  targetAssessment : Option TargetAssessment
  whyBestMatch : String
  likelyScope : List String
  uncertainties : List String
  userQuestions : List String
  planSpec : PlanSpec

/-- The data a successful run of the scope-lock `POST` fetches from the
grading system, bundled as inputs: the embedding models the route given
that every outbound read succeeded (a failed fetch throws and produces no
response). -/
structure ScopeInputs where
  userQuestion : String
  userToday : Int
  courseId : Option Int := none
  courses : List CanvasCourse
  quizzes : List CanvasQuiz
  assignments : List CanvasAssignment
  quizDetailsOf : Int → CanvasQuiz
  modules : List CanvasModule
  moduleItemsOf : Int → List CanvasModuleItem
  announcements : List CanvasAnnouncement
  pages : List CanvasPage
  files : List CanvasFile

/-- Embedding of the scope-lock `POST` (minus fetch plumbing): the no-course
branch of lines 170–197 and the course branch assembling `contextSummary`,
`uncertainties`, `userQuestions` and `planSpec` of lines 199–417.  Both
branches set `planSpec.ready_to_generate` to the literal `false`. -/
def scopeLockPost (inp : ScopeInputs) : ScopeResponse :=
  let tokens := extractTopicTokens inp.userQuestion
  match guessedCourse inp.courseId tokens inp.courses with
  | none =>
    { course := none
      targetAssessment := none
      whyBestMatch := "No active Canvas course could be identified."
      likelyScope := []
      uncertainties := ["No active course found."]
      userQuestions := ["Which course should be used for this study guide?"]
      planSpec :=
        { course_id := none
          assessment := { type := none, id := none, title := none, due_at := none }
          topic_tokens := tokens
          in_scope_topics := []
          out_of_scope_topics := []
          style_mcq := "unknown"
          style_free_response := "unknown"
          style_graphing := "unknown"
          materials_module_items := []
          materials_files := []
          materials_pages := []
          materials_announcements := []
          weak_areas := []
          signals := []
          ready_to_generate := false } }
  | some course =>
    let target := selectTargetAssessment course.id inp.userToday tokens inp.quizzes inp.assignments
    let quizDetails :=
      match target with
      | some t => if t.type == "quiz" then some (inp.quizDetailsOf t.id) else none
      | none => none
    let selectedModule := (stableSort (moduleLe tokens) inp.modules).head?
    let moduleItems := match selectedModule with
      | some m => inp.moduleItemsOf m.id
      | none => []
    let weak := weakSignalsOf inp.assignments
    let likely := likelyTopicsOf tokens moduleItems
    let unc := scopeUncertainties target quizDetails
    { course := some course
      targetAssessment := target
      whyBestMatch :=
        if target.isSome then
          "Selected by weekday due date proximity in the 10-day window and topic-token title match."
        else "No valid weekday assessment candidate found in the date window."
      likelyScope := likely
      uncertainties := unc
      userQuestions := scopeUserQuestions unc
      planSpec :=
        { course_id := some course.id
          assessment :=
            match target with
            | some t =>
              { type := some t.type, id := some (toString t.id), title := some t.title,
                due_at := t.due_at }
            | none => { type := none, id := none, title := none, due_at := none }
          topic_tokens := tokens
          in_scope_topics := likely
          out_of_scope_topics := []
          style_mcq := "unknown"
          style_free_response := "unknown"
          style_graphing := "unknown"
          materials_module_items := (moduleItems.take 12).map (fun i => i.title.getD "Untitled")
          materials_files := (inp.files.take 12).map (fun f => f.display_name)
          materials_pages := (inp.pages.take 12).map (fun p => p.title)
          materials_announcements := (inp.announcements.take 12).map (fun a => a.title)
          weak_areas := weak.map (fun s => s.item_name)
          signals := weak.map (fun s => s.item_name ++ ": " ++ toString s.score_pct ++ "%")
          ready_to_generate := false } }

end ScopeLock

namespace Insights

/-- Stop words of `inferConceptFromTitle`. -/
def STOP_WORDS : List String :=
  ["the", "a", "an", "for", "to", "and", "of", "in", "on", "with", "unit", "chapter",
   "project", "assignment", "quiz", "test", "lab"]

/-- Embedding of `inferConceptFromTitle`: lowercase, strip non-alphanumerics,
split on whitespace, keep tokens longer than 2 characters that are not stop
words; a fixed label when nothing remains, else the first 4 tokens joined. -/
def inferConceptFromTitle (title : String) : String :=
  let tokens := (jsSplitWs (StudyGuide.keepAlnumWs (jsToLower title))).filter
    (fun token => decide (2 < token.length) && !(STOP_WORDS.contains token))
  if tokens.length = 0 then "Core course concepts"
  else String.intercalate " " (tokens.take 4)

/-- Enrollment record carrying the computed current score. -/
structure Enrollment where
  computed_current_score : Option ℚ := none

/-- Course snapshot consumed by the insight builders. -/
structure CanvasCourse where
  id : Int
  name : String
  enrollments : Option (List Enrollment) := none

/-- Submission record of an assignment. -/
structure Submission where
  score : Option ℚ := none

/-- Assignment snapshot consumed by the insight builders. -/
structure CanvasAssignment where
  id : Int := 0
  name : String
  submission : Option Submission := none
  points_possible : Option ℚ := none

/-- Grade signal emitted per course. -/
structure GradeSignal where
  subject : String
  currentScore : ℚ
  trend : String
  reason : String

/-- Focus recommendation emitted per course. -/
structure FocusRecommendation where
  subject : String
  priority : String
  concept : String
  why : String
  suggestedMinutesPerWeek : Nat

/-- The current score of a course:
`Number(course.enrollments?.[0]?.computed_current_score ?? 0)`. -/
def courseScore (course : CanvasCourse) : ℚ :=
  match course.enrollments with
  | some (e :: _) => e.computed_current_score.getD 0
  | _ => 0

/-- Rendering of `score.toFixed(1)`; exact for the non-negative scores the
grading system produces (`toFixed` on negative values places the sign
differently). -/
def toFixed1 (q : ℚ) : String :=
  let n : Int := Int.floor (q * 10 + 1 / 2)
  toString (Int.ediv n 10) ++ "." ++ toString ((Int.emod n 10).natAbs)

/-- Embedding of the per-course body of `buildGradeSignals`. -/
def gradeSignalFor (course : CanvasCourse) : GradeSignal :=
  let score := courseScore course
  let trend := if score < 75 then "declining" else if 88 ≤ score then "improving" else "steady"
  { subject := course.name
    currentScore := score
    trend := trend
    reason := if score < 75 then "Current score is below target band." else "Performance is stable." }

/-- Embedding of `buildGradeSignals`. -/
def buildGradeSignals (courses : List CanvasCourse) : List GradeSignal :=
  courses.map gradeSignalFor

/-- Submission score with the `?? 0` default used by the weak-assignment
comparator. -/
def submissionScoreD (a : CanvasAssignment) : ℚ :=
  match a.submission with
  | some s => s.score.getD 0
  | none => 0

/-- Ascending comparison of assignments by submission score, the comparator
`(a, b) => (a.submission?.score ?? 0) - (b.submission?.score ?? 0)`. -/
def weakAsgLe (a b : CanvasAssignment) : Bool :=
  decide (submissionScoreD a ≤ submissionScoreD b)

/-- The weakest-scoring assignment: numerically scored assignments sorted
ascending by score, first element. -/
def weakAssignmentOf (assignments : List CanvasAssignment) : Option CanvasAssignment :=
  (stableSort weakAsgLe (assignments.filter (fun a =>
    match a.submission with
    | some s => s.score.isSome
    | none => false))).head?

/-- Embedding of the per-course body of `buildFocusRecommendations`:
priority and trend thresholds at 75 and 88, concept from the weakest
assignment title, fixed minute table 180/120/75. -/
def focusRecFor (assignmentsByCourse : Int → Option (List CanvasAssignment))
    (course : CanvasCourse) : FocusRecommendation :=
  let score := courseScore course
  let assignments := (assignmentsByCourse course.id).getD []
  let weakAssignment := weakAssignmentOf assignments
  let concept := match weakAssignment with
    | some a => inferConceptFromTitle a.name
    | none => "Foundational review"
  let priority := if score < 75 then "high" else if score < 88 then "medium" else "low"
  let suggestedMinutesPerWeek : Nat := if priority == "high" then 180 else if priority == "medium" then 120 else 75
  { subject := course.name
    priority := priority
    concept := concept
    why :=
      if priority == "high" then
        "Low current score (" ++ toFixed1 score ++ "%) and weaker assignment outcomes."
      else if priority == "medium" then
        "Moderate score (" ++ toFixed1 score ++ "%) needs reinforcement."
      else "Strong score (" ++ toFixed1 score ++ "%) - maintain with light review."
    suggestedMinutesPerWeek := suggestedMinutesPerWeek }

/-- Embedding of `priorityWeight`. -/
def priorityWeight (priority : String) : Nat :=
  if priority == "high" then 3
  else if priority == "medium" then 2
  else 1

/-- Descending comparison on the priority weight, the comparator
`(a, b) => priorityWeight(b.priority) - priorityWeight(a.priority)`. -/
def recLe (a b : FocusRecommendation) : Bool :=
  decide (priorityWeight b.priority ≤ priorityWeight a.priority)

/-- Embedding of `buildFocusRecommendations`: per-course recommendations
sorted descending by priority weight (stably). -/
def buildFocusRecommendations (courses : List CanvasCourse)
    (assignmentsByCourse : Int → Option (List CanvasAssignment)) : List FocusRecommendation :=
  stableSort recLe (courses.map (focusRecFor assignmentsByCourse))

end Insights

/-- String projection of a JavaScript value. -/
def asStr : JVal → Option String
  | .jstr s => some s
  | _ => none

namespace StudyGuide

/-- Topic-list length of a normalization result; `none` when the call threw. -/
def resultTopicsLen : Except String Guide → Option Nat
  | .ok d => some d.scope_lock.topics.length
  | .error _ => none

/-- Chip strings of a normalization result. -/
def resultChipStrs : Except String Guide → Option (List (Option String))
  | .ok d => some (d.ui_hints.topic_chips.map asStr)
  | .error _ => none

/-- Topic-label strings of a normalization result. -/
def resultTopicLabelStrs : Except String Guide → Option (List (Option String))
  | .ok d => some (d.scope_lock.topics.map (fun t => asStr t.topic))
  | .error _ => none

/-- String projection of a primary-topic result; `none` when the call threw. -/
def primaryStr : Except String JVal → Option (Option String)
  | .ok v => some (asStr v)
  | .error _ => none

/-- A well-formed topic with a substantive label. -/
def plainTopic : NTopic :=
  { topic := .jstr "Algebra basics", badge := badgeLikely,
    why_included := .jstr "Aligned with current units.", evidence := [] }

/-- A small well-formed fallback document whose chips agree with its topic
labels, as `defaultGuide` produces. -/
def plainFallback : Guide :=
  { status := "READY"
    scope_lock := { topics := [plainTopic], out_of_scope_topics := [] }
    study_guide :=
      { overview :=
          { test_ready_definition := .jstr "You can solve Algebra basics problems."
            estimated_total_minutes := .jnum 75
            if_you_have_20_min := [], if_you_have_45_min := [], if_you_have_75_min := [] }
        sections := [] }
    checklist := []
    ui_hints := { topic_chips := [.jstr "Algebra basics"], default_selected_topics := [],
                  recommended_time_buttons := [.jnum 20, .jnum 45, .jnum 75] } }

/-- A fallback document whose single topic label is the junk word `quiz`. -/
def junkOnlyFallback : Guide :=
  { plainFallback with
    scope_lock :=
      { topics := [{ topic := .jstr "quiz", badge := badgeMayNot,
                     why_included := .jstr "", evidence := [] }]
        out_of_scope_topics := [] } }

/-- A typed fallback document whose UI chips and default selection disagree
with its topic labels. -/
def mismatchedUiFallback : Guide :=
  { plainFallback with
    ui_hints := { topic_chips := [.jstr "Wrong chip"],
                  default_selected_topics := [.jstr "Wrong default"],
                  recommended_time_buttons := [] } }

/-- A candidate supplying one topic (with an out-of-domain badge) and its
own chip proposal. -/
def chipCandidate : JVal :=
  .jobj
    [("scope_lock", .jobj
        [("topics", .jarr
            [.jobj [("topic", .jstr "Linear sequences"), ("badge", .jstr "Definitely on test")]])]),
     ("ui_hints", .jobj [("topic_chips", .jarr [.jstr "candidate chip"])])]

/-- The document `normalizeGuide` produces for `chipCandidate` over the
plain fallback. -/
def chipDoc : Guide :=
  ((normalizeGuide chipCandidate plainFallback).toOption).getD plainFallback

/-- A candidate whose `scope_lock.topics` contains an element with no
string `topic` field. -/
def badTopicCandidate : JVal :=
  .jobj [("scope_lock", .jobj [("topics", .jarr [.jobj []])])]

/-- A canonical document whose only topic label is the generic word
`algebra` and whose sections contribute no topics. -/
def algebraOnlyDoc : Guide :=
  { plainFallback with
    scope_lock :=
      { topics := [{ topic := .jstr "algebra", badge := badgeLikely,
                     why_included := .jstr "", evidence := [] }]
        out_of_scope_topics := [] } }

/-- A canonical document with no topics and no sections. -/
def emptyScopeDoc : Guide :=
  { plainFallback with scope_lock := { topics := [], out_of_scope_topics := [] } }

end StudyGuide

/-- A quiz due on a Friday (one day after the epoch Thursday), used to
exercise the quiz branch of the assessment selection. -/
def fridayQuiz : ScopeLock.CanvasQuiz :=
  { id := 7, title := "Algebra quiz", due_at := some 86400000 }

/-- A course whose first enrollment reports a current score of 72. -/
def course72 : Insights.CanvasCourse :=
  { id := 1, name := "Algebra II", enrollments := some [{ computed_current_score := some 72 }] }

theorem mapE_ok_mem {f : α → Except ε β} :
    ∀ {xs : List α} {ys : List β}, mapE f xs = .ok ys → ∀ y ∈ ys, ∃ x, x ∈ xs ∧ f x = .ok y := by
  intro xs
  induction xs with
  | nil =>
    intro ys h y hy
    simp only [mapE] at h
    cases h
    simp at hy
  | cons x xs ih =>
    intro ys h y hy
    simp only [mapE] at h
    cases hfx : f x with
    | error e => rw [hfx] at h; cases h
    | ok y0 =>
      rw [hfx] at h
      cases hrec : mapE f xs with
      | error e => rw [hrec] at h; cases h
      | ok ys0 =>
        rw [hrec] at h
        cases h
        rcases List.mem_cons.mp hy with h1 | h2
        · exact ⟨x, List.mem_cons_self x xs, by rw [hfx, h1]⟩
        · rcases ih hrec y h2 with ⟨x1, hx1, hfx1⟩
          exact ⟨x1, List.mem_cons_of_mem x hx1, hfx1⟩

theorem filterE_ok_mem {p : α → Except ε Bool} :
    ∀ {xs ys : List α}, filterE p xs = .ok ys → ∀ y ∈ ys, y ∈ xs ∧ p y = .ok true := by
  intro xs
  induction xs with
  | nil =>
    intro ys h y hy
    simp only [filterE] at h
    cases h
    simp at hy
  | cons x xs ih =>
    intro ys h y hy
    simp only [filterE] at h
    cases hpx : p x with
    | error e => rw [hpx] at h; cases h
    | ok b =>
      rw [hpx] at h
      cases hrec : filterE p xs with
      | error e => rw [hrec] at h; cases h
      | ok rest =>
        rw [hrec] at h
        cases h
        cases b with
        | true =>
          rcases List.mem_cons.mp (by simpa using hy) with rfl | h2
          · exact ⟨List.mem_cons_self y xs, hpx⟩
          · rcases ih hrec y h2 with ⟨hmem, hp⟩
            exact ⟨List.mem_cons_of_mem x hmem, hp⟩
        | false =>
          rcases ih hrec y (by simpa using hy) with ⟨hmem, hp⟩
          exact ⟨List.mem_cons_of_mem x hmem, hp⟩

theorem filterE_ok_keep {p : α → Except ε Bool} :
    ∀ {xs ys : List α}, filterE p xs = .ok ys → ∀ x ∈ xs, p x = .ok true → x ∈ ys := by
  intro xs
  induction xs with
  | nil => intro ys h x hx; simp at hx
  | cons x xs ih =>
    intro ys h z hz hpz
    simp only [filterE] at h
    cases hpx : p x with
    | error e => rw [hpx] at h; cases h
    | ok b =>
      rw [hpx] at h
      cases hrec : filterE p xs with
      | error e => rw [hrec] at h; cases h
      | ok rest =>
        rw [hrec] at h
        cases h
        rcases List.mem_cons.mp hz with h1 | h2
        · subst h1
          rw [hpz] at hpx
          cases hpx
          simp
        · have hr := ih hrec z h2 hpz
          cases b with
          | true => exact List.mem_cons_of_mem x (by simpa using hr)
          | false => simpa using hr

theorem mem_insertLe {le : α → α → Bool} {x y : α} :
    ∀ {l : List α}, y ∈ insertLe le x l ↔ y = x ∨ y ∈ l := by
  intro l
  induction l with
  | nil => simp [insertLe]
  | cons z zs ih =>
    simp only [insertLe]
    by_cases h : le x z = true
    · rw [if_pos h]
      simp [List.mem_cons]
    · rw [if_neg h]
      simp only [List.mem_cons, ih]
      tauto

theorem mem_stableSort {le : α → α → Bool} {y : α} :
    ∀ {l : List α}, y ∈ stableSort le l ↔ y ∈ l := by
  intro l
  induction l with
  | nil => simp [stableSort]
  | cons x xs ih =>
    simp only [stableSort]
    rw [mem_insertLe]
    simp [List.mem_cons, ih]

theorem length_insertLe {le : α → α → Bool} {x : α} :
    ∀ {l : List α}, (insertLe le x l).length = l.length + 1 := by
  intro l
  induction l with
  | nil => simp [insertLe]
  | cons z zs ih =>
    simp only [insertLe]
    by_cases h : le x z = true
    · rw [if_pos h]; simp
    · rw [if_neg h]; simp [ih]

theorem length_stableSort {le : α → α → Bool} :
    ∀ {l : List α}, (stableSort le l).length = l.length := by
  intro l
  induction l with
  | nil => rfl
  | cons x xs ih => simp [stableSort, length_insertLe, ih]

theorem pairwise_insertLe {le : α → α → Bool}
    (htrans : ∀ a b c, le a b = true → le b c = true → le a c = true)
    (htotal : ∀ a b, le a b = true ∨ le b a = true) (x : α) :
    ∀ {l : List α}, l.Pairwise (fun a b => le a b = true) →
      (insertLe le x l).Pairwise (fun a b => le a b = true) := by
  intro l
  induction l with
  | nil => intro _; simp [insertLe]
  | cons y ys ih =>
    intro hp
    rw [List.pairwise_cons] at hp
    obtain ⟨hy, hys⟩ := hp
    simp only [insertLe]
    by_cases hxy : le x y = true
    · rw [if_pos hxy]
      rw [List.pairwise_cons]
      refine ⟨?_, List.pairwise_cons.mpr ⟨hy, hys⟩⟩
      intro a ha
      rcases List.mem_cons.mp ha with rfl | ha2
      · exact hxy
      · exact htrans x y a hxy (hy a ha2)
    · have hyx : le y x = true := (htotal x y).resolve_left hxy
      rw [if_neg hxy]
      rw [List.pairwise_cons]
      refine ⟨?_, ih hys⟩
      intro a ha
      rcases mem_insertLe.mp ha with rfl | ha2
      · exact hyx
      · exact hy a ha2

theorem pairwise_stableSort {le : α → α → Bool}
    (htrans : ∀ a b c, le a b = true → le b c = true → le a c = true)
    (htotal : ∀ a b, le a b = true ∨ le b a = true) :
    ∀ (l : List α), (stableSort le l).Pairwise (fun a b => le a b = true) := by
  intro l
  induction l with
  | nil => simp [stableSort]
  | cons x xs ih => exact pairwise_insertLe htrans htotal x ih

theorem stableSort_head_le {le : α → α → Bool}
    (htrans : ∀ a b c, le a b = true → le b c = true → le a c = true)
    (htotal : ∀ a b, le a b = true ∨ le b a = true)
    {l : List α} {x : α} {rest : List α} (h : stableSort le l = x :: rest) :
    ∀ y ∈ l, le x y = true := by
  intro y hy
  have hmem : y ∈ stableSort le l := mem_stableSort.mpr hy
  rw [h] at hmem
  rcases List.mem_cons.mp hmem with rfl | hr
  · rcases htotal y y with h1 | h1 <;> exact h1
  · have hp := pairwise_stableSort htrans htotal l
    rw [h, List.pairwise_cons] at hp
    exact hp.1 y hr

theorem filter_insertLe {le : α → α → Bool} {p : α → Bool} {x : α}
    (hx : ∀ y, p y = true → p x = true → le x y = true) :
    ∀ (l : List α), (insertLe le x l).filter p = if p x then x :: l.filter p else l.filter p := by
  intro l
  induction l with
  | nil =>
    by_cases hpx : p x = true
    · simp [insertLe, List.filter_cons, hpx]
    · simp [insertLe, List.filter_cons, hpx]
  | cons y ys ih =>
    simp only [insertLe]
    by_cases hxy : le x y = true
    · rw [if_pos hxy]
      by_cases hpx : p x = true
      · simp [List.filter_cons, hpx]
      · simp [List.filter_cons, hpx]
    · rw [if_neg hxy]
      by_cases hpy : p y = true
      · by_cases hpx : p x = true
        · exact absurd (hx y hpy hpx) hxy
        · simp [List.filter_cons, hpy, hpx, ih]
      · simp [List.filter_cons, hpy, ih]

theorem filter_stableSort {le : α → α → Bool} {p : α → Bool}
    (hp : ∀ a b, p a = true → p b = true → le a b = true) :
    ∀ (l : List α), (stableSort le l).filter p = l.filter p := by
  intro l
  induction l with
  | nil => rfl
  | cons x xs ih =>
    simp only [stableSort]
    rw [filter_insertLe (fun y hy hx2 => hp x y hx2 hy), ih]
    by_cases hpx : p x = true
    · simp [List.filter_cons, hpx]
    · simp [List.filter_cons, hpx]

theorem jval_beq_jstr_iff {v : JVal} {s : String} :
    ((v == JVal.jstr s) = true) ↔ v = JVal.jstr s := by
  cases v <;> simp [BEq.beq, JVal.beq]

namespace StudyGuide

theorem normalizeBadge_mem (v : JVal) : normalizeBadge v ∈ badgeStrings := by
  unfold normalizeBadge
  split_ifs <;> simp [badgeStrings]

theorem normalizeBadge_outside (v : JVal)
    (h1 : v ≠ .jstr badgeConfirmed) (h2 : v ≠ .jstr badgeLikely) (h3 : v ≠ .jstr badgeMayNot) :
    normalizeBadge v = badgeLikely := by
  have e1 : (v == JVal.jstr badgeConfirmed) = false := by
    cases hb : (v == JVal.jstr badgeConfirmed) with
    | false => rfl
    | true => exact absurd (jval_beq_jstr_iff.mp hb) h1
  have e2 : (v == JVal.jstr badgeLikely) = false := by
    cases hb : (v == JVal.jstr badgeLikely) with
    | false => rfl
    | true => exact absurd (jval_beq_jstr_iff.mp hb) h2
  have e3 : (v == JVal.jstr badgeMayNot) = false := by
    cases hb : (v == JVal.jstr badgeMayNot) with
    | false => rfl
    | true => exact absurd (jval_beq_jstr_iff.mp hb) h3
  simp [normalizeBadge, e1, e2, e3]

theorem isJunkTopic_empty : isJunkTopic "" = true := by decide

theorem notJunkE_ok_true {t : NTopic} (h : notJunkE t = .ok true) :
    ∃ s, t.topic = .jstr s ∧ isJunkTopic s = false := by
  unfold notJunkE at h
  cases hj : isJunkTopicJ t.topic with
  | error e => rw [hj] at h; cases h
  | ok b =>
    rw [hj] at h
    cases htop : t.topic <;> rw [htop] at hj <;> simp [isJunkTopicJ] at hj
    case jstr s =>
      refine ⟨s, rfl, ?_⟩
      have hb : b = false := by
        have h2 := Except.ok.inj h
        cases b
        · rfl
        · cases h2
      rw [hj, hb]

theorem notJunkE_of_string {t : NTopic} {s : String}
    (hts : t.topic = .jstr s) (hj : isJunkTopic s = false) : notJunkE t = .ok true := by
  unfold notJunkE
  rw [hts]
  simp [isJunkTopicJ, hj]

theorem jvalToNTopic_ok_badge {v : JVal} {t : NTopic} (h : jvalToNTopic v = .ok t) :
    ∃ b, t.badge = normalizeBadge b := by
  unfold jvalToNTopic at h
  cases h1 : jsAccess v "badge" with
  | error e => rw [h1] at h; cases h
  | ok b =>
    rw [h1] at h
    cases h2 : jsAccess v "evidence" with
    | error e => rw [h2] at h; cases h
    | ok ev =>
      rw [h2] at h
      cases h
      exact ⟨b, rfl⟩

theorem mergeTopics_ok_badges {scopeObj : JVal} {fb : List NTopic} {ts : List NTopic}
    (h : mergeTopics scopeObj fb = .ok ts) :
    ∀ t ∈ ts, t.badge ∈ badgeStrings := by
  intro t ht
  unfold mergeTopics at h
  cases hx : getField scopeObj "topics" with
  | jarr xs =>
    rw [hx] at h
    rcases mapE_ok_mem h t ht with ⟨x, _, hfx⟩
    rcases jvalToNTopic_ok_badge hfx with ⟨b, hb⟩
    rw [hb]
    exact normalizeBadge_mem b
  | jnull | jundefined | jbool _ | jnum _ | jstr _ | jobj _ =>
    all_goals
      rw [hx] at h
      cases h
      rcases List.mem_map.mp ht with ⟨t0, _, rfl⟩
      exact normalizeBadge_mem _

theorem mergeChecklistItems_ok_badges {checklistObj : JVal} {fb : List ChecklistItem}
    {items : List ChecklistItem}
    (h : mergeChecklistItems checklistObj fb = .ok items) :
    ∀ it ∈ items, it.badge ∈ badgeStrings := by
  intro it hit
  unfold mergeChecklistItems at h
  cases hx : getField checklistObj "items" with
  | jarr xs =>
    rw [hx] at h
    rcases mapE_ok_mem h it hit with ⟨x, _, hfx⟩
    unfold jvalToChecklistItem at hfx
    cases h1 : jsAccess x "badge" with
    | error e => rw [h1] at hfx; cases hfx
    | ok b =>
      rw [h1] at hfx
      cases hfx
      exact normalizeBadge_mem b
  | jnull | jundefined | jbool _ | jnum _ | jstr _ | jobj _ =>
    all_goals
      rw [hx] at h
      cases h
      rcases List.mem_map.mp hit with ⟨t0, _, rfl⟩
      exact normalizeBadge_mem _

theorem recoveredTopics_ok_strings {scopeObj : JVal} {fb : List NTopic} {r : List NTopic}
    (h : recoveredTopics scopeObj fb = .ok r) :
    ∀ t ∈ r, ∃ s, t.topic = .jstr s ∧ isJunkTopic s = false := by
  intro t ht
  unfold recoveredTopics at h
  split at h
  · cases h
  · split at h
    · cases h
    next t0 t2 heq2 =>
      by_cases hlen : t2.length = 0
      · rw [if_pos hlen] at h
        exact notJunkE_ok_true ((filterE_ok_mem h t ht).2)
      · rw [if_neg hlen] at h
        cases h
        exact notJunkE_ok_true ((filterE_ok_mem heq2 t ht).2)

theorem recoveredTopics_ok_nonempty {scopeObj : JVal} {fb : List NTopic} {r : List NTopic}
    {t : NTopic} {s : String}
    (hmem : t ∈ fb) (hts : t.topic = .jstr s) (hjunk : isJunkTopic s = false)
    (h : recoveredTopics scopeObj fb = .ok r) : r ≠ [] := by
  have hpt : notJunkE t = .ok true := notJunkE_of_string hts hjunk
  unfold recoveredTopics at h
  split at h
  · cases h
  · split at h
    · cases h
    next t0 t2 heq2 =>
      by_cases hlen : t2.length = 0
      · rw [if_pos hlen] at h
        exact List.ne_nil_of_mem (filterE_ok_keep h t hmem hpt)
      · rw [if_neg hlen] at h
        cases h
        intro hnil
        rw [hnil] at hlen
        exact hlen rfl

theorem recoveredTopics_ok_badges {scopeObj : JVal} {fb : List NTopic} {r : List NTopic}
    (hfb : ∀ t ∈ fb, t.badge ∈ badgeStrings)
    (h : recoveredTopics scopeObj fb = .ok r) :
    ∀ t ∈ r, t.badge ∈ badgeStrings := by
  intro t ht
  unfold recoveredTopics at h
  split at h
  · cases h
  next t0 heq0 =>
    split at h
    · cases h
    next t2 heq2 =>
      by_cases hlen : t2.length = 0
      · rw [if_pos hlen] at h
        exact hfb t (filterE_ok_mem h t ht).1
      · rw [if_neg hlen] at h
        cases h
        have hin := (filterE_ok_mem heq2 t ht).1
        by_cases h00 : t0.length = 0
        · rw [if_pos h00] at hin
          exact hfb t hin
        · rw [if_neg h00] at hin
          exact mergeTopics_ok_badges heq0 t hin

theorem assembleGuide_topics (cand : JVal) (fb : Guide) (topics : List NTopic)
    (items : List ChecklistItem) :
    (assembleGuide cand fb topics items).scope_lock.topics = topics := rfl

theorem assembleGuide_checklist (cand : JVal) (fb : Guide) (topics : List NTopic)
    (items : List ChecklistItem) :
    (assembleGuide cand fb topics items).checklist = items := rfl

theorem normalizeGuide_ok_cases {cand : JVal} {fb d : Guide}
    (h : normalizeGuide cand fb = .ok d) :
    ((!(jsTruthy cand) || !(typeofIsObject cand)) = true ∧ d = fb)
    ∨ ∃ topics items,
        recoveredTopics (scopeObjOf cand) fb.scope_lock.topics = .ok topics
        ∧ mergeChecklistItems (checklistObjOf cand) fb.checklist = .ok items
        ∧ d = assembleGuide cand fb topics items := by
  unfold normalizeGuide at h
  by_cases hg : (!(jsTruthy cand) || !(typeofIsObject cand)) = true
  · rw [if_pos hg] at h
    exact Or.inl ⟨hg, (Except.ok.inj h).symm⟩
  · rw [if_neg hg] at h
    cases h1 : recoveredTopics (scopeObjOf cand) fb.scope_lock.topics with
    | error e => rw [h1] at h; cases h
    | ok topics =>
      rw [h1] at h
      cases h2 : mergeChecklistItems (checklistObjOf cand) fb.checklist with
      | error e => rw [h2] at h; cases h
      | ok items =>
        rw [h2] at h
        exact Or.inr ⟨topics, items, rfl, rfl, (Except.ok.inj h).symm⟩

end StudyGuide

namespace StudyGuide

theorem assembleGuide_ui_of_strings (cand : JVal) (fb : Guide) (topics : List NTopic)
    (items : List ChecklistItem)
    (hstr : ∀ t ∈ topics, ∃ s, t.topic = .jstr s ∧ isJunkTopic s = false)
    (hne : topics.length ≠ 0) :
    (assembleGuide cand fb topics items).ui_hints.topic_chips = topics.map NTopic.topic ∧
    ((mergeUiHints (uiObjOf cand) fb.ui_hints).default_selected_topics = [] →
      (assembleGuide cand fb topics items).ui_hints.default_selected_topics
        = (topics.map NTopic.topic).take 3) := by
  have hfilter : (topics.map NTopic.topic).filter jsTruthy = topics.map NTopic.topic := by
    apply List.filter_eq_self.mpr
    intro v hv
    rcases List.mem_map.mp hv with ⟨t, ht, rfl⟩
    rcases hstr t ht with ⟨s, hts, hj⟩
    rw [hts]
    have hsne : s ≠ "" := by
      intro hse
      rw [hse, isJunkTopic_empty] at hj
      cases hj
    simp [jsTruthy]
    exact hsne
  have hpos : 0 < ((topics.map NTopic.topic).filter jsTruthy).length := by
    rw [hfilter, List.length_map]
    omega
  constructor
  · simp only [assembleGuide]
    rw [if_pos hpos]
    exact hfilter
  · intro hdef
    simp only [assembleGuide]
    rw [if_pos hpos]
    simp only [hdef, List.length_nil, if_pos]
    rw [hfilter]

/-- C1 (counterexample): a fallback whose single topic is the junk word
`quiz` has at least one topic, yet `normalizeGuide` of the empty-object
candidate over it returns a document with zero topics — the recovery step
junk-filters the fallback topics as well. -/
theorem normalizeGuide_junk_fallback_empty :
    junkOnlyFallback.scope_lock.topics.length = 1 ∧
    resultTopicsLen (normalizeGuide (.jobj []) junkOnlyFallback) = some 0 :=
  ⟨rfl, rfl⟩

/-- C1 (amended): for every fallback document with at least one topic whose
label is a string surviving junk-filtering, and every candidate value, any
document `normalizeGuide` returns (it can also throw on malformed topic
entries) has a non-empty `scope_lock.topics` list. -/
theorem normalizeGuide_nonempty_scope_amended (cand : JVal) (fb : Guide) (t : NTopic) (s : String)
    (hmem : t ∈ fb.scope_lock.topics) (hts : t.topic = .jstr s) (hjunk : isJunkTopic s = false)
    (d : Guide) (hok : normalizeGuide cand fb = .ok d) :
    1 ≤ d.scope_lock.topics.length := by
  rcases normalizeGuide_ok_cases hok with ⟨_, rfl⟩ | ⟨topics, items, h1, h2, rfl⟩
  · have hnil := List.ne_nil_of_mem hmem
    have := List.length_pos.mpr hnil
    omega
  · rw [assembleGuide_topics]
    have hnil := recoveredTopics_ok_nonempty hmem hts hjunk h1
    have := List.length_pos.mpr hnil
    omega

/-- C1 (witness): the amended theorem applied to the null candidate and the
plain fallback. -/
theorem normalizeGuide_nonempty_scope_witness :
    1 ≤ plainFallback.scope_lock.topics.length :=
  normalizeGuide_nonempty_scope_amended .jnull plainFallback plainTopic "Algebra basics"
    (List.mem_singleton.mpr rfl) rfl (by decide) plainFallback rfl

/-- C2: for every candidate and every fallback whose own badges lie in the
three-literal domain (the `GeneratorOutput` typing), every topic badge and
every checklist badge of a returned document lies in
`{Confirmed on test, Likely on test, May not be on test}`; and
`normalizeBadge` maps every value outside the three literals to
`Likely on test`. -/
theorem normalizeGuide_badge_closure (fb : Guide)
    (hfbT : ∀ t ∈ fb.scope_lock.topics, t.badge ∈ badgeStrings)
    (hfbC : ∀ it ∈ fb.checklist, it.badge ∈ badgeStrings) :
    (∀ (cand : JVal) (d : Guide), normalizeGuide cand fb = .ok d →
      (∀ t ∈ d.scope_lock.topics, t.badge ∈ badgeStrings) ∧
      ∀ it ∈ d.checklist, it.badge ∈ badgeStrings) ∧
    ∀ v : JVal, v ≠ .jstr badgeConfirmed → v ≠ .jstr badgeLikely → v ≠ .jstr badgeMayNot →
      normalizeBadge v = badgeLikely := by
  constructor
  · intro cand d hok
    rcases normalizeGuide_ok_cases hok with ⟨_, rfl⟩ | ⟨topics, items, h1, h2, rfl⟩
    · exact ⟨hfbT, hfbC⟩
    · rw [assembleGuide_topics, assembleGuide_checklist]
      exact ⟨recoveredTopics_ok_badges hfbT h1, mergeChecklistItems_ok_badges h2⟩
  · exact normalizeBadge_outside

/-- C2 (witness): the closure theorem applied at the plain fallback and an
out-of-domain badge string. -/
theorem normalizeGuide_badge_closure_witness :
    normalizeBadge (.jstr "Definitely on test") = badgeLikely :=
  (normalizeGuide_badge_closure plainFallback
    (by intro t ht; rcases List.mem_singleton.mp ht with rfl; decide)
    (by intro it hit; exact absurd hit (List.not_mem_nil it))).2
    (.jstr "Definitely on test")
    (by intro hcontra; exact absurd (JVal.jstr.inj hcontra) (by decide))
    (by intro hcontra; exact absurd (JVal.jstr.inj hcontra) (by decide))
    (by intro hcontra; exact absurd (JVal.jstr.inj hcontra) (by decide))

/-- C3 (counterexample): with a null candidate the fallback is returned
verbatim, so its chips (`Wrong chip`) need not match its topic labels
(`Algebra basics`) — the claimed chip/topic consistency fails for such
input pairs. -/
theorem normalizeGuide_chips_counterexample :
    resultChipStrs (normalizeGuide .jnull mismatchedUiFallback) = some [some "Wrong chip"] ∧
    resultTopicLabelStrs (normalizeGuide .jnull mismatchedUiFallback) = some [some "Algebra basics"] ∧
    ([some "Wrong chip"] : List (Option String)) ≠ [some "Algebra basics"] :=
  ⟨rfl, rfl, by decide⟩

/-- C3 (amended): when the candidate is a truthy object (the merge path)
and the final topics list is non-empty, the returned document's
`ui_hints.topic_chips` equals its topic labels in order (candidate chips
are ignored), and `default_selected_topics` equals the first three chips
whenever the merged default list (candidate's when an array, else the
fallback's) is empty. -/
theorem normalizeGuide_chip_consistency_amended (cand : JVal) (fb : Guide) (d : Guide)
    (htru : jsTruthy cand = true) (hobj : typeofIsObject cand = true)
    (hok : normalizeGuide cand fb = .ok d)
    (hne : d.scope_lock.topics.length ≠ 0) :
    d.ui_hints.topic_chips = d.scope_lock.topics.map NTopic.topic ∧
    ((mergeUiHints (uiObjOf cand) fb.ui_hints).default_selected_topics = [] →
      d.ui_hints.default_selected_topics = (d.scope_lock.topics.map NTopic.topic).take 3) := by
  rcases normalizeGuide_ok_cases hok with ⟨hg, rfl⟩ | ⟨topics, items, h1, h2, rfl⟩
  · rw [htru, hobj] at hg
    simp at hg
  · have hstr := recoveredTopics_ok_strings h1
    have hmain := assembleGuide_ui_of_strings cand fb topics items hstr
      (by rwa [assembleGuide_topics] at hne)
    rw [assembleGuide_topics]
    exact hmain

/-- C3 (witness): the amended theorem applied to a candidate that supplies
its own topic and chip lists over the plain fallback. -/
theorem normalizeGuide_chip_consistency_witness :
    chipDoc.ui_hints.topic_chips = chipDoc.scope_lock.topics.map NTopic.topic ∧
    chipDoc.ui_hints.default_selected_topics = (chipDoc.scope_lock.topics.map NTopic.topic).take 3 := by
  have h := normalizeGuide_chip_consistency_amended chipCandidate plainFallback chipDoc
    rfl rfl rfl (by decide)
  exact ⟨h.1, h.2 rfl⟩

/-- C9: `normalizeGuide` is not total — for the candidate whose
`scope_lock.topics` is `[{}]` (an element with no string `topic` field),
the junk filter calls `trim` on `undefined` and the call throws instead of
returning a document. -/
theorem normalizeGuide_throws_on_nonstring_topic :
    resultTopicsLen (normalizeGuide badTopicCandidate plainFallback) = none := rfl

end StudyGuide

namespace StudyGuide

theorem specificTopicE_ok_string {v : JVal} {b : Bool} (h : specificTopicE v = .ok b) :
    ∃ s, v = .jstr s := by
  cases v with
  | jstr s => exact ⟨s, rfl⟩
  | jnull => cases h
  | jundefined => cases h
  | jbool b2 => cases h
  | jnum n => cases h
  | jarr xs => cases h
  | jobj fs => cases h

theorem legacySpecificTopics_ok_strings {doc : Guide} {specific : List JVal}
    (hs : legacySpecificTopics doc = .ok specific) :
    ∀ v ∈ specific, ∃ s, v = .jstr s := by
  intro v hv
  unfold legacySpecificTopics at hs
  split at hs
  · cases hs
  · split at hs
    · cases hs
    · split at hs
      · cases hs
      · split at hs
        · cases hs
        · split at hs
          · cases hs
          · split at hs
            · cases hs
            · exact specificTopicE_ok_string ((filterE_ok_mem hs v hv).2)

theorem legacyPrimaryTopic_eq {doc : Guide} {prompt : Option String} {specific : List JVal}
    (hs : legacySpecificTopics doc = .ok specific) :
    legacyPrimaryTopic doc prompt = .ok (nullishChain
      [specific.headD .jundefined,
       (match doc.scope_lock.topics.head? with
        | some t => t.topic
        | none => .jundefined),
       (match prompt with
        | some p => .jstr (jsTrim p)
        | none => .jundefined)]
      (.jstr "current quiz topic")) := by
  unfold legacyPrimaryTopic
  rw [hs]

/-- C5 (amended): the primary-topic fallback chain of the legacy projection
is nullish-coalescing: the first specific topic when one exists; else the
first raw topic's label whenever the topic list is non-empty and that label
is not nullish (even when it is a generic word such as `algebra`); else the
trimmed user prompt whenever a prompt was passed (even when it trims to the
empty string); else the literal `current quiz topic`. -/
theorem legacyPrimaryTopic_chain_amended (doc : Guide) (prompt : Option String)
    (specific : List JVal) (hs : legacySpecificTopics doc = .ok specific) :
    (∀ v vs, specific = v :: vs → legacyPrimaryTopic doc prompt = .ok v) ∧
    (specific = [] → ∀ t ts, doc.scope_lock.topics = t :: ts → jsNullish t.topic = false →
      legacyPrimaryTopic doc prompt = .ok t.topic) ∧
    (specific = [] → doc.scope_lock.topics = [] → ∀ p, prompt = some p →
      legacyPrimaryTopic doc prompt = .ok (.jstr (jsTrim p))) ∧
    (specific = [] → doc.scope_lock.topics = [] → prompt = none →
      legacyPrimaryTopic doc prompt = .ok (.jstr "current quiz topic")) := by
  refine ⟨?_, ?_, ?_, ?_⟩
  · intro v vs hcons
    rcases legacySpecificTopics_ok_strings hs v (by rw [hcons]; exact List.mem_cons_self v vs)
      with ⟨s, rfl⟩
    rw [legacyPrimaryTopic_eq hs, hcons]
    simp [nullishChain, jsNullish]
  · intro hnil t ts htop hnn
    rw [legacyPrimaryTopic_eq hs, hnil, htop]
    simp only [nullishChain, List.headD, List.head?_cons]
    rw [if_pos (show jsNullish JVal.jundefined = true from rfl), if_neg (by simp [hnn])]
  · intro hnil htop p hp
    rw [legacyPrimaryTopic_eq hs, hnil, htop, hp]
    simp [nullishChain, jsNullish]
  · intro hnil htop hp
    rw [legacyPrimaryTopic_eq hs, hnil, htop, hp]
    simp [nullishChain, jsNullish]

/-- C5 (counterexample): for the canonical document whose only topic label
is the generic word `algebra` and a non-empty prompt, the primary topic is
`algebra` — the raw topic list precedes the prompt in the fallback chain,
so the trimmed prompt is not used. -/
theorem legacyPrimaryTopic_generic_counterexample :
    primaryStr (legacyPrimaryTopic algebraOnlyDoc (some "quadratics please")) = some (some "algebra") ∧
    (some "algebra" : Option String) ≠ some "quadratics please" :=
  ⟨rfl, by decide⟩

/-- C5 (witness): the amended chain applied to a document with no specific
and no raw topics and a padded prompt. -/
theorem legacyPrimaryTopic_chain_witness :
    legacyPrimaryTopic emptyScopeDoc (some " quadratics ") = .ok (.jstr (jsTrim " quadratics ")) :=
  ((legacyPrimaryTopic_chain_amended emptyScopeDoc (some " quadratics ") [] rfl).2.2.1)
    rfl rfl " quadratics " rfl

/-- C4: the Topic Scope Builder run on course `Algebra II`, no assignments,
no units and the prompt `help with quadratics` yields the Algebra-1
curriculum topics plus the prompt concept — not the five quadratic topics —
because `"algebra ii"` contains the substring `"algebra i"`, so the
Algebra-1 branch of `inferLikelyTopics` fires first and its dedicated
`algebra ii` test is unreachable.  Every emitted topic is badged
`May not be on test`, as claimed. -/
theorem defaultGuideTopics_algebra2_scenario :
    ((defaultGuideTopics (some "Algebra II") [] [] (some "help with quadratics")
        (extractTopicTokens "help with quadratics")).map NTopic.topic
      = [.jstr "Quadratic functions", .jstr "Linear equations", .jstr "Systems of equations",
         .jstr "Exponents and polynomials"]) ∧
    ((defaultGuideTopics (some "Algebra II") [] [] (some "help with quadratics")
        (extractTopicTokens "help with quadratics")).all (fun t => t.badge == badgeMayNot) = true) ∧
    (inferLikelyTopics "Algebra II" "help with quadratics"
      = ["Linear equations", "Systems of equations", "Exponents and polynomials"]) ∧
    (["Quadratic functions", "Linear equations", "Systems of equations",
      "Exponents and polynomials"]
      ≠ ["Quadratic functions", "Graphing parabolas", "Factoring quadratics",
         "Completing the square", "Quadratic formula and discriminant"]) :=
  ⟨rfl, rfl, rfl, by decide⟩

end StudyGuide

namespace ScopeLock

theorem quizRankLe_trans : ∀ a b c : CanvasQuiz × ℚ,
    quizRankLe a b = true → quizRankLe b c = true → quizRankLe a c = true := by
  intro a b c hab hbc
  simp only [quizRankLe, decide_eq_true_eq] at hab hbc ⊢
  exact le_trans hbc hab

theorem quizRankLe_total : ∀ a b : CanvasQuiz × ℚ,
    quizRankLe a b = true ∨ quizRankLe b a = true := by
  intro a b
  simp only [quizRankLe, decide_eq_true_eq]
  exact le_total b.2 a.2

theorem asgScoreLe_trans : ∀ a b c : CanvasAssignment × Nat,
    asgScoreLe a b = true → asgScoreLe b c = true → asgScoreLe a c = true := by
  intro a b c hab hbc
  simp only [asgScoreLe, decide_eq_true_eq] at hab hbc ⊢
  exact le_trans hbc hab

theorem asgScoreLe_total : ∀ a b : CanvasAssignment × Nat,
    asgScoreLe a b = true ∨ asgScoreLe b a = true := by
  intro a b
  simp only [asgScoreLe, decide_eq_true_eq]
  exact le_total b.2 a.2

end ScopeLock

theorem stableSort_ne_nil {le : α → α → Bool} {l : List α} (h : l ≠ []) :
    stableSort le l ≠ [] := by
  intro hnil
  have hlen := @length_stableSort _ le l
  rw [hnil] at hlen
  exact h (List.length_eq_zero.mp hlen.symm)

namespace ScopeLock

/-- C6: the Evidence Gatherer's assessment selection.  Among quizzes whose
due date is a weekday within `[today, today + 10 days]`, the one maximising
`10 × tokenMatchCount − daysFromToday` is chosen; when no such quiz exists
the same filter is applied to assignments and the one maximising
`tokenMatchCount` alone is chosen; when still none, the selection is `none`
(so each call selects at most one candidate) and the no-assessment
uncertainty is recorded. -/
theorem scopeLock_assessment_selection (courseId today : Int) (tokens : List String)
    (quizzes : List CanvasQuiz) (assignments : List CanvasAssignment) :
    (quizzes.filter (quizWindowOk today) ≠ [] →
      ∃ q ∈ quizzes.filter (quizWindowOk today),
        selectTargetAssessment courseId today tokens quizzes assignments =
          some { type := "quiz", id := q.id, title := q.title, due_at := q.due_at,
                 courseId := courseId, description := q.description } ∧
        ∀ q2 ∈ quizzes.filter (quizWindowOk today),
          quizRank today tokens q2 ≤ quizRank today tokens q) ∧
    (quizzes.filter (quizWindowOk today) = [] →
      assignments.filter (asgWindowOk today) ≠ [] →
      ∃ a ∈ assignments.filter (asgWindowOk today),
        selectTargetAssessment courseId today tokens quizzes assignments =
          some { type := "assignment", id := a.id, title := a.name, due_at := a.due_at,
                 courseId := courseId } ∧
        ∀ a2 ∈ assignments.filter (asgWindowOk today),
          textMatchScore a2.name tokens ≤ textMatchScore a.name tokens) ∧
    (quizzes.filter (quizWindowOk today) = [] →
      assignments.filter (asgWindowOk today) = [] →
      selectTargetAssessment courseId today tokens quizzes assignments = none ∧
      noAssessmentMsg ∈ scopeUncertainties none none) := by
  refine ⟨?_, ?_, ?_⟩
  · intro hq
    have hpairs : (quizzes.filter (quizWindowOk today)).map
        (fun q => (q, quizRank today tokens q)) ≠ [] := by
      intro hnil
      exact hq (List.map_eq_nil_iff.mp hnil)
    have hsne := @stableSort_ne_nil _ quizRankLe _ hpairs
    cases hs : stableSort quizRankLe ((quizzes.filter (quizWindowOk today)).map
        (fun q => (q, quizRank today tokens q))) with
    | nil => exact absurd hs hsne
    | cons p rest =>
      have hpmem : p ∈ (quizzes.filter (quizWindowOk today)).map
          (fun q => (q, quizRank today tokens q)) := by
        rw [← @mem_stableSort _ quizRankLe _ _, hs]
        exact List.mem_cons_self p rest
      rcases List.mem_map.mp hpmem with ⟨q, hqmem, hpq⟩
      subst hpq
      refine ⟨q, hqmem, ?_, ?_⟩
      · simp only [selectTargetAssessment]
        rw [hs]
        rfl
      · intro q2 hq2
        have h2 := stableSort_head_le quizRankLe_trans quizRankLe_total hs
          (q2, quizRank today tokens q2) (List.mem_map.mpr ⟨q2, hq2, rfl⟩)
        simpa [quizRankLe] using h2
  · intro hq ha
    have hpairs : (assignments.filter (asgWindowOk today)).map
        (fun a => (a, textMatchScore a.name tokens)) ≠ [] := by
      intro hnil
      exact ha (List.map_eq_nil_iff.mp hnil)
    have hsne := @stableSort_ne_nil _ asgScoreLe _ hpairs
    cases hs : stableSort asgScoreLe ((assignments.filter (asgWindowOk today)).map
        (fun a => (a, textMatchScore a.name tokens))) with
    | nil => exact absurd hs hsne
    | cons p rest =>
      have hpmem : p ∈ (assignments.filter (asgWindowOk today)).map
          (fun a => (a, textMatchScore a.name tokens)) := by
        rw [← @mem_stableSort _ asgScoreLe _ _, hs]
        exact List.mem_cons_self p rest
      rcases List.mem_map.mp hpmem with ⟨a, hamem, hpa⟩
      subst hpa
      refine ⟨a, hamem, ?_, ?_⟩
      · simp only [selectTargetAssessment]
        rw [hq]
        simp only [List.map_nil, stableSort, List.head?_nil]
        rw [hs]
        rfl
      · intro a2 ha2
        have h2 := stableSort_head_le asgScoreLe_trans asgScoreLe_total hs
          (a2, textMatchScore a2.name tokens) (List.mem_map.mpr ⟨a2, ha2, rfl⟩)
        simpa [asgScoreLe] using h2
  · intro hq ha
    constructor
    · simp only [selectTargetAssessment]
      rw [hq, ha]
      simp [stableSort]
    · exact List.mem_singleton.mpr rfl

/-- C10: every response of the scope-lock operation — on the no-course
branch and the course branch alike, however strong the evidence — carries
`planSpec.ready_to_generate = false`. -/
theorem scopeLock_never_ready (inp : ScopeInputs) :
    (scopeLockPost inp).planSpec.ready_to_generate = false := by
  simp only [scopeLockPost]
  cases hg : guessedCourse inp.courseId (extractTopicTokens inp.userQuestion) inp.courses with
  | none => rfl
  | some c => rfl

end ScopeLock

/-- C6 (witness): the selection theorem applied to one weekday-due quiz,
one matching token and no assignments. -/
theorem scopeLock_selection_witness :
    (ScopeLock.selectTargetAssessment 3 0 ["algebra"] [fridayQuiz] []).isSome = true := by
  obtain ⟨q, hq, hsel, hmax⟩ :=
    (ScopeLock.scopeLock_assessment_selection 3 0 ["algebra"] [fridayQuiz] []).1 (by decide)
  rw [hsel]
  rfl

namespace Insights

/-- C7: the Focus Scorer's thresholds.  With the current score taken from
the first enrollment record (0 when absent): a score below 75 yields
priority `high`, 180 suggested minutes per week and grade-signal trend
`declining`; a score in `[75, 88)` yields `medium`, 120 and `steady`; a
score of at least 88 yields `low`, 75 and `improving`. -/
theorem insights_score_thresholds (amap : Int → Option (List CanvasAssignment))
    (course : CanvasCourse) :
    (courseScore course < 75 →
      (focusRecFor amap course).priority = "high" ∧
      (focusRecFor amap course).suggestedMinutesPerWeek = 180 ∧
      (gradeSignalFor course).trend = "declining") ∧
    (75 ≤ courseScore course → courseScore course < 88 →
      (focusRecFor amap course).priority = "medium" ∧
      (focusRecFor amap course).suggestedMinutesPerWeek = 120 ∧
      (gradeSignalFor course).trend = "steady") ∧
    (88 ≤ courseScore course →
      (focusRecFor amap course).priority = "low" ∧
      (focusRecFor amap course).suggestedMinutesPerWeek = 75 ∧
      (gradeSignalFor course).trend = "improving") := by
  refine ⟨?_, ?_, ?_⟩
  · intro h
    refine ⟨?_, ?_, ?_⟩ <;> simp [focusRecFor, gradeSignalFor, h]
  · intro h1 h2
    have h75 : ¬ courseScore course < 75 := not_lt.mpr h1
    have h88 : ¬ 88 ≤ courseScore course := not_le.mpr h2
    refine ⟨?_, ?_, ?_⟩ <;> simp [focusRecFor, gradeSignalFor, h75, h2, h88]
  · intro h
    have h75 : ¬ courseScore course < 75 :=
      not_lt.mpr (le_trans (by norm_num) h)
    have h88 : ¬ courseScore course < 88 := not_lt.mpr h
    refine ⟨?_, ?_, ?_⟩ <;> simp [focusRecFor, gradeSignalFor, h75, h88, h]

theorem recLe_trans : ∀ a b c : FocusRecommendation,
    recLe a b = true → recLe b c = true → recLe a c = true := by
  intro a b c hab hbc
  simp only [recLe, decide_eq_true_eq] at hab hbc ⊢
  exact le_trans hbc hab

theorem recLe_total : ∀ a b : FocusRecommendation,
    recLe a b = true ∨ recLe b a = true := by
  intro a b
  simp only [recLe, decide_eq_true_eq]
  exact Nat.le_total (priorityWeight b.priority) (priorityWeight a.priority)

/-- C8: the Focus Scorer's output is sorted non-increasingly by priority
weight (high = 3, medium = 2, low = 1) — every adjacent pair satisfies
`weight(result[i+1]) ≤ weight(result[i])` — and entries of any fixed
priority appear in input course order (filtering the output by a priority
gives exactly the per-course recommendations of that priority, in order). -/
theorem insights_priority_ordering (courses : List CanvasCourse)
    (amap : Int → Option (List CanvasAssignment)) :
    (buildFocusRecommendations courses amap).Chain'
      (fun a b => priorityWeight b.priority ≤ priorityWeight a.priority) ∧
    ∀ p : String,
      (buildFocusRecommendations courses amap).filter (fun r => r.priority == p)
        = (courses.map (focusRecFor amap)).filter (fun r => r.priority == p) := by
  constructor
  · have hp := pairwise_stableSort recLe_trans recLe_total (courses.map (focusRecFor amap))
    have hp2 : (buildFocusRecommendations courses amap).Pairwise
        (fun a b => priorityWeight b.priority ≤ priorityWeight a.priority) := by
      apply List.Pairwise.imp ?_ hp
      intro a b hab
      simpa [recLe] using hab
    exact hp2.chain'
  · intro p
    have hties : ∀ a b : FocusRecommendation,
        (a.priority == p) = true → (b.priority == p) = true → recLe a b = true := by
      intro a b ha hb
      have hea : a.priority = p := by simpa using ha
      have heb : b.priority = p := by simpa using hb
      simp [recLe, hea, heb]
    exact filter_stableSort hties (courses.map (focusRecFor amap))

end Insights

/-- C7 (witness): the threshold theorem applied to a course scored 72 with
no assignments. -/
theorem insights_score72_witness :
    (Insights.focusRecFor (fun _ => none) course72).priority = "high" ∧
    (Insights.focusRecFor (fun _ => none) course72).suggestedMinutesPerWeek = 180 ∧
    (Insights.gradeSignalFor course72).trend = "declining" :=
  (Insights.insights_score_thresholds (fun _ => none) course72).1 (by decide)
